import Mathlib

/-!
Shallow embedding of the durable delayed-dispatch engine of the
Email-Scheduler repository (backend): the email record table, the
rate limiter, the BullMQ queue configuration, the worker job
processor, the scheduling controller, cancellation, and the
restart-recovery loader.  Wall-clock instants are modelled as
milliseconds since an hour-aligned epoch, so the start of the next
hour after instant t is t - t % 3600000 + 3600000.
-/

namespace EmailScheduler

/-- Email lifecycle statuses, from EmailStatus in
src/backend/src/services/email.service.ts
(SCHEDULED | RETRYING | SENT | FAILED). -/
inductive EmailStatus where
  | SCHEDULED
  | RETRYING
  | SENT
  | FAILED
  deriving DecidableEq, Repr

/-- One row of the emails table, from the Email interface in
src/backend/src/services/email.service.ts (camelCase view of the
snake-case columns; timestamps as milliseconds). -/
structure EmailRec where
  id : String
  senderId : String
  recipientEmail : String
  subject : String
  body : String
  scheduledAt : Nat
  sentAt : Option Nat
  status : EmailStatus
  attemptCount : Nat
  errorMessage : Option String
  idempotencyKey : Option String
  deriving DecidableEq, Repr

/-- The emails table: a list of rows. -/
abbrev EmailTable := List EmailRec

/-- Embeds a Supabase update(...).eq(id, emailId): every row whose id
matches is rewritten by f, all other rows are unchanged. -/
def updateEmail (db : EmailTable) (emailId : String) (f : EmailRec → EmailRec) : EmailTable :=
  db.map (fun e => if e.id = emailId then f e else e)

/-- An email-log insert, from email_logs inserts in the worker and the
controllers: (email id, status label, message). -/
structure LogEntry where
  emailId : String
  status : String
  message : String
  deriving DecidableEq, Repr

/-- MAX_EMAILS_PER_HOUR_PER_SENDER default, from rateLimit.service. -/
def MAX_EMAILS_PER_HOUR : Nat := 100

/-- Result of checkRateLimit, from RateLimitStatus in
rateLimit.service (resetAt / nextWindow omitted: no modelled claim
reads them). -/
structure RateLimitStatus where
  allowed : Bool
  current : Nat
  limit : Nat
  deriving DecidableEq, Repr

/-- Embeds checkRateLimit of rateLimit.service.  The Redis read is
passed in: none models a storage error (the catch branch), some c the
successful read where c is the stored counter (none when the key is
absent).  On success allowed is count < MAX_EMAILS_PER_HOUR; on
storage error the function fails open with allowed true, current 0. -/
def checkRateLimit (storeRead : Option (Option Nat)) : RateLimitStatus :=
  match storeRead with
  | some c =>
      { allowed := decide (c.getD 0 < MAX_EMAILS_PER_HOUR)
        current := c.getD 0
        limit := MAX_EMAILS_PER_HOUR }
  | none =>
      { allowed := true, current := 0, limit := MAX_EMAILS_PER_HOUR }

/-- Embeds incrementRateLimit of rateLimit.service: on a successful
Redis incr it returns the new count; on a storage error it rethrows
(Except.error carries the error message) rather than failing open. -/
def incrementRateLimit (incrRead : Except String Nat) : Except String Nat :=
  match incrRead with
  | Except.ok n => Except.ok n
  | Except.error e => Except.error e

/-- One BullMQ job of the email queue, from EmailJobData plus the add
options in src/backend/src/queues/emailQueue.ts.  jobId none models a
call where the idempotencyKey argument was undefined, in which case
BullMQ assigns a fresh automatic id (distinct from every
caller-supplied id). -/
structure QueueJob where
  jobId : Option String
  emailId : String
  senderId : String
  delayMs : Nat
  attemptCount : Nat
  deriving DecidableEq, Repr

/-- defaultJobOptions.attempts of the email queue (emailQueue.ts). -/
def emailQueueAttempts : Nat := 3

/-- Embeds addEmailToQueue of emailQueue.ts: delay is
max(0, scheduledAt - now) (Nat subtraction is truncated, hence exactly
this), and the job id is the idempotencyKey argument as passed
(undefined lets BullMQ auto-assign). -/
def addEmailToQueue (emailId senderId : String) (dataAttemptCount : Nat)
    (scheduledAtMs nowMs : Nat) (idempotencyKey : Option String) : QueueJob :=
  { jobId := idempotencyKey
    emailId := emailId
    senderId := senderId
    delayMs := scheduledAtMs - nowMs
    attemptCount := dataAttemptCount }

/-- The worker and queue classify an error as the rate-limited
condition by testing whether its message starts with RATE_LIMITED
(emailWorker.ts, both the catch branch and backoffStrategy).  The
startsWith test is rendered as a character-list prefix test, which
agrees with it on every string. -/
def isRateLimitedMsg (msg : String) : Bool :=
  List.isPrefixOf "RATE_LIMITED".data msg.data

/-- The RATE_LIMITED error message built and thrown by the worker when
checkRateLimit reports not allowed (emailWorker.ts step 1). -/
def rateLimitedMsg (current limit : Nat) : String :=
  "RATE_LIMITED: " ++ toString current ++ "/" ++ toString limit ++ " emails sent."

/-- Milliseconds from instant nowMs until the start of the next hour
window, as computed in backoffStrategy (setHours(h+1, 0, 0, 0) then
subtracting now). -/
def delayUntilNextHour (nowMs : Nat) : Nat :=
  3600000 - nowMs % 3600000

/-- Embeds settings.backoffStrategy of emailWorker.ts: a RATE_LIMITED
error delays until the start of the next hour; any other error gets
exponential backoff min(2 ^ attemptsMade * 1000, 60000) ms. -/
def backoffStrategy (attemptsMade : Nat) (errMsg : String) (nowMs : Nat) : Nat :=
  if isRateLimitedMsg errMsg then delayUntilNextHour nowMs
  else min (2 ^ attemptsMade * 1000) 60000

/-- What the queue does with a job after its processor throws. -/
inductive RetryDecision where
  | retry (delayMs : Nat)
  | moveToFailed
  deriving DecidableEq, Repr

/-- The queue retry discipline induced by defaultJobOptions.attempts =
3 (emailQueue.ts) and the registered backoffStrategy (emailWorker.ts):
a thrown error increments the job attempt counter; while the counter
is below the attempts cap the job is rescheduled with the strategy
delay, otherwise it is moved to the failed set with no further job. -/
def decideAfterFailure (attemptsMade : Nat) (errMsg : String) (nowMs : Nat) : RetryDecision :=
  if attemptsMade + 1 < emailQueueAttempts then
    RetryDecision.retry (backoffStrategy (attemptsMade + 1) errMsg nowMs)
  else
    RetryDecision.moveToFailed

/-- Outcome of the sendEmail call to the mail transport, as the worker
observes it: a resolved promise with a message id, or a thrown error
with a message. -/
inductive DeliverOutcome where
  | success (messageId : String)
  | failure (errMsg : String)
  deriving DecidableEq, Repr

/-- The external collaborators one worker attempt consults, passed in
as data: the Redis read backing checkRateLimit, the senders lookup,
the sendEmail outcome, the Redis incr backing incrementRateLimit, and
the wall clock. -/
structure WorkerEnv where
  rateRead : Option (Option Nat)
  senderFound : Bool
  deliver : DeliverOutcome
  incrRead : Except String Nat
  nowMs : Nat

/-- The job data the worker receives, from EmailJobData. -/
structure JobData where
  emailId : String
  senderId : String
  recipientEmail : String
  subject : String
  body : String
  attemptCount : Nat
  deriving DecidableEq, Repr

/-- Everything one run of the worker processor produces: the updated
emails table, the email_logs inserts, whether sendEmail was invoked,
and the error rethrown to the queue (none when the processor returned
normally). -/
structure AttemptResult where
  db : EmailTable
  logs : List LogEntry
  deliveryInvoked : Bool
  thrown : Option String
  deriving Repr

/-- The catch branch of the worker processor (emailWorker.ts lines
123-160): a RATE_LIMITED error updates the row to RETRYING with the
error message and inserts no log; any other error updates the row to
FAILED with the error message and inserts a FAILED log.  The error is
rethrown either way. -/
def workerCatch (db : EmailTable) (emailId : String) (msg : String) :
    EmailTable × List LogEntry :=
  if isRateLimitedMsg msg then
    (updateEmail db emailId (fun e =>
      { e with status := EmailStatus.RETRYING, errorMessage := some msg }), [])
  else
    (updateEmail db emailId (fun e =>
      { e with status := EmailStatus.FAILED, errorMessage := some msg }),
     [{ emailId := emailId, status := "FAILED", message := "Send failed: " ++ msg }])

/-- Embeds the job processor of emailWorker.ts.  Steps, in source
order: (1) checkRateLimit, throwing a RATE_LIMITED error when not
allowed; (2) update the row to RETRYING; (3) look up the sender,
throwing when absent; (4) the minimum-spacing sleep (no modelled
effect); (5-6) sendEmail; (7) on success update the row to SENT with
sent_at; (8) insert a SENT log; (9) incrementRateLimit, whose thrown
storage error reaches the same catch.  Every throw lands in
workerCatch and is rethrown to the queue. -/
def processEmailJob (env : WorkerEnv) (job : JobData) (db : EmailTable) : AttemptResult :=
  let rl := checkRateLimit env.rateRead
  if rl.allowed = false then
    let msg := rateLimitedMsg rl.current rl.limit
    let (db1, logs1) := workerCatch db job.emailId msg
    { db := db1, logs := logs1, deliveryInvoked := false, thrown := some msg }
  else
    let db1 := updateEmail db job.emailId (fun e => { e with status := EmailStatus.RETRYING })
    if env.senderFound = false then
      let msg := "Sender " ++ job.senderId ++ " not found"
      let (db2, logs2) := workerCatch db1 job.emailId msg
      { db := db2, logs := logs2, deliveryInvoked := false, thrown := some msg }
    else
      match env.deliver with
      | DeliverOutcome.failure msg =>
          let (db2, logs2) := workerCatch db1 job.emailId msg
          { db := db2, logs := logs2, deliveryInvoked := true, thrown := some msg }
      | DeliverOutcome.success messageId =>
          let db2 := updateEmail db1 job.emailId (fun e =>
            { e with status := EmailStatus.SENT, sentAt := some env.nowMs })
          let sentLog : LogEntry :=
            { emailId := job.emailId, status := "SENT"
              message := "Email sent successfully. Message ID: " ++ messageId }
          match incrementRateLimit env.incrRead with
          | Except.ok _ =>
              { db := db2, logs := [sentLog], deliveryInvoked := true, thrown := none }
          | Except.error emsg =>
              let (db3, logs3) := workerCatch db2 job.emailId emsg
              { db := db3, logs := [sentLog] ++ logs3
                deliveryInvoked := true, thrown := some emsg }

/-- A schedule request after zod validation, from scheduleEmailSchema
in email.controller.ts. -/
structure ScheduleRequest where
  senderId : String
  recipientEmail : String
  subject : String
  body : String
  scheduledAt : Nat
  idempotencyKey : Option String
  deriving DecidableEq, Repr

/-- The HTTP response the schedule controller sends. -/
structure HttpResponse where
  status : Nat
  message : String
  emailId : Option String
  deriving DecidableEq, Repr

/-- Embeds getEmailByIdempotencyKey of email.service.ts: the row whose
idempotency_key equals the key, none when absent. -/
def getEmailByIdempotencyKey (db : EmailTable) (key : String) : Option EmailRec :=
  db.find? (fun e => e.idempotencyKey = some key)

/-- Embeds createEmail of email.service.ts: insert a fresh row with
status SCHEDULED and attempt_count 0; newId is the id the database
assigns. -/
def createEmail (db : EmailTable) (newId : String) (req : ScheduleRequest) :
    EmailRec × EmailTable :=
  let e : EmailRec :=
    { id := newId, senderId := req.senderId, recipientEmail := req.recipientEmail
      subject := req.subject, body := req.body, scheduledAt := req.scheduledAt
      sentAt := none, status := EmailStatus.SCHEDULED, attemptCount := 0
      errorMessage := none, idempotencyKey := req.idempotencyKey }
  (e, db ++ [e])

/-- Everything one run of the schedule controller produces. -/
structure ScheduleOutcome where
  db : EmailTable
  enqueued : List QueueJob
  logs : List LogEntry
  response : HttpResponse
  deriving Repr

/-- Embeds scheduleEmailController of email.controller.ts (the sender
ownership check passed).  When an idempotencyKey is given and a row
with it exists, respond 200 with the existing row and change nothing.
Otherwise create the row, then try addEmailToQueue with the idempotency
key of the row or undefined: a queue error (queueFails) is caught and
only logged, after which the controller still writes the SCHEDULED log
and responds 201 Email scheduled successfully. -/
def scheduleEmailController (db : EmailTable) (req : ScheduleRequest) (newId : String)
    (queueFails : Bool) (nowMs : Nat) : ScheduleOutcome :=
  let hit : Option EmailRec :=
    match req.idempotencyKey with
    | some k => getEmailByIdempotencyKey db k
    | none => none
  match hit with
  | some existing =>
      { db := db, enqueued := [], logs := []
        response := { status := 200, message := "Email already scheduled"
                      emailId := some existing.id } }
  | none =>
      let (email, db1) := createEmail db newId req
      let enq : List QueueJob :=
        if queueFails then []
        else [addEmailToQueue email.id email.senderId 0 email.scheduledAt nowMs
                email.idempotencyKey]
      { db := db1, enqueued := enq
        logs := [{ emailId := email.id, status := "SCHEDULED"
                   message := "Email scheduled successfully" }]
        response := { status := 201, message := "Email scheduled successfully"
                      emailId := some email.id } }

/-- Embeds deleteEmail of email.service.ts: the row is deleted outright
(the source comment notes CANCELLED is not a valid status). -/
def deleteEmail (db : EmailTable) (emailId : String) : EmailTable :=
  db.filter (fun e => e.id ≠ emailId)

/-- Embeds cancelEmailController of email.controller.ts (lookup and
ownership checks passed): it calls deleteEmail and writes a CANCELLED
log.  It takes no queue argument because the controller never touches
the queue (removeEmailFromQueue exists in emailQueue.ts but has no
caller), so pending QueueJobs for the email are left in place. -/
def cancelEmail (db : EmailTable) (emailId : String) : EmailTable × List LogEntry :=
  (deleteEmail db emailId,
   [{ emailId := emailId, status := "CANCELLED", message := "Email cancelled" }])

/-- The status filter of the restart-recovery query: status in
SCHEDULED, RETRYING. -/
def isRequeueStatus (e : EmailRec) : Bool :=
  e.status = EmailStatus.SCHEDULED || e.status = EmailStatus.RETRYING

/-- The accumulator of the recovery loop: the table as updated so far
and the jobs enqueued so far. -/
structure RequeueResult where
  db : EmailTable
  enqueued : List QueueJob
  deriving Repr

/-- One iteration of the recovery loop (requeueOnRestart.ts lines
46-95), with tl the wall clock during the loop (the source calls new
Date() afresh per iteration; one instant stands for them): an email
whose scheduledAt has passed is marked FAILED with the stale-schedule
message and skipped; otherwise it is enqueued with attemptCount 0 and
job id idempotency_key falling back to the email id. -/
def requeueStep (tl : Nat) (acc : RequeueResult) (e : EmailRec) : RequeueResult :=
  if e.scheduledAt < tl then
    { db := updateEmail acc.db e.id (fun x =>
        { x with status := EmailStatus.FAILED
                 errorMessage := some "Email scheduled time has passed during server restart" })
      enqueued := acc.enqueued }
  else
    { db := acc.db
      enqueued := acc.enqueued ++
        [addEmailToQueue e.id e.senderId 0 e.scheduledAt tl
          (some (e.idempotencyKey.getD e.id))] }

/-- Embeds requeuePendingEmails of requeueOnRestart.ts: the Supabase
query selects rows with status SCHEDULED or RETRYING AND
scheduled_at >= the query-time clock tq (the gte filter), then the
loop of requeueStep runs over them at loop-time clock tl. -/
def requeuePendingEmails (tq tl : Nat) (db : EmailTable) : RequeueResult :=
  let pending := db.filter (fun e => isRequeueStatus e && tq ≤ e.scheduledAt)
  pending.foldl (requeueStep tl) { db := db, enqueued := [] }

/-! Concrete fixtures used to evaluate the model at specific inputs. -/

/-- A concrete SCHEDULED email row, id e1, due at instant 5000, with
no idempotency key. -/
def sampleEmail : EmailRec :=
  { id := "e1", senderId := "s1", recipientEmail := "r@example.com"
    subject := "hello", body := "body", scheduledAt := 5000, sentAt := none
    status := EmailStatus.SCHEDULED, attemptCount := 0
    errorMessage := none, idempotencyKey := none }

/-- The queue job data for sampleEmail. -/
def sampleJob : JobData :=
  { emailId := "e1", senderId := "s1", recipientEmail := "r@example.com"
    subject := "hello", body := "body", attemptCount := 0 }

/-- A worker environment in which every collaborator cooperates: the
rate-limit key is absent (count 0, allowed), the sender row exists,
delivery succeeds, and the rate-counter increment succeeds. -/
def sampleEnv : WorkerEnv :=
  { rateRead := some none, senderFound := true
    deliver := DeliverOutcome.success "mid-1", incrRead := Except.ok 1, nowMs := 7000 }

/-- A concrete schedule request carrying idempotency key K. -/
def sampleReqKeyed : ScheduleRequest :=
  { senderId := "s1", recipientEmail := "r@example.com", subject := "hello"
    body := "body", scheduledAt := 5000, idempotencyKey := some "K" }

/-- A concrete schedule request with no idempotency key. -/
def sampleReqPlain : ScheduleRequest :=
  { senderId := "s1", recipientEmail := "r@example.com", subject := "hello"
    body := "body", scheduledAt := 5000, idempotencyKey := none }

/-! Helper lemmas about the embedding. -/

/-- A row that matches the id of an updateEmail lands in the updated
table with the update applied. -/
theorem mem_updateEmail {db : EmailTable} {e : EmailRec} {emailId : String}
    (f : EmailRec → EmailRec) (hmem : e ∈ db) (hid : e.id = emailId) :
    f e ∈ updateEmail db emailId f := by
  have h := List.mem_map_of_mem (fun x => if x.id = emailId then f x else x) hmem
  simpa [updateEmail, hid] using h

/-- updateEmail leaves the attemptCount column of every row unchanged
whenever the update function does. -/
theorem updateEmail_attemptCounts {db : EmailTable} {emailId : String}
    (f : EmailRec → EmailRec) (hf : ∀ x, (f x).attemptCount = x.attemptCount) :
    (updateEmail db emailId f).map (fun e => e.attemptCount)
      = db.map (fun e => e.attemptCount) := by
  induction db with
  | nil => rfl
  | cons a l ih =>
      simp only [updateEmail, List.map_cons, List.map_map] at ih ⊢
      refine congrArg₂ List.cons ?_ ih
      by_cases h : a.id = emailId <;> simp [h, hf]

/-- Jobs already accumulated stay accumulated across one recovery
loop iteration. -/
theorem requeueStep_enqueued_mono (tl : Nat) (acc : RequeueResult) (e : EmailRec) :
    acc.enqueued ⊆ (requeueStep tl acc e).enqueued := by
  unfold requeueStep
  by_cases h : e.scheduledAt < tl
  · simp [h]
  · intro j hj
    simp only [h, if_false]
    exact List.mem_append_left _ hj

/-- Jobs already accumulated stay accumulated across the whole
recovery loop. -/
theorem requeue_foldl_enqueued_mono (tl : Nat) (l : List EmailRec) (acc : RequeueResult) :
    acc.enqueued ⊆ (l.foldl (requeueStep tl) acc).enqueued := by
  induction l generalizing acc with
  | nil => exact fun j hj => hj
  | cons a l ih =>
      intro j hj
      exact ih (requeueStep tl acc a) (requeueStep_enqueued_mono tl acc a hj)

/-- Every item the recovery loop visits whose schedule has not passed
gets a job enqueued, whose id is the idempotency key of the item
falling back to the item id. -/
theorem requeue_foldl_enqueues (tl : Nat) (l : List EmailRec) (acc : RequeueResult)
    (e : EmailRec) (he : e ∈ l) (hfresh : ¬ e.scheduledAt < tl) :
    ∃ j ∈ (l.foldl (requeueStep tl) acc).enqueued,
      j.emailId = e.id ∧ j.jobId = some (e.idempotencyKey.getD e.id) := by
  induction l generalizing acc with
  | nil => cases he
  | cons a l ih =>
      rcases List.mem_cons.mp he with rfl | he'
      · have hj : addEmailToQueue e.id e.senderId 0 e.scheduledAt tl
            (some (e.idempotencyKey.getD e.id)) ∈ (requeueStep tl acc e).enqueued := by
          simp [requeueStep, hfresh]
        exact ⟨_, requeue_foldl_enqueued_mono tl l (requeueStep tl acc e) hj, rfl, rfl⟩
      · exact ih (requeueStep tl acc a) he'

/-- find? of an appended list scans the left part first. -/
theorem find?_append_of_none {α : Type} {p : α → Bool} {l1 l2 : List α}
    (h : l1.find? p = none) : (l1 ++ l2).find? p = l2.find? p := by
  induction l1 with
  | nil => rfl
  | cons a l ih =>
      cases hp : p a with
      | true => simp [List.find?_cons_of_pos _ hp] at h
      | false =>
          rw [List.find?_cons_of_neg l (by simp [hp])] at h
          show List.find? p (a :: (l ++ l2)) = List.find? p l2
          rw [List.find?_cons_of_neg (l ++ l2) (by simp [hp])]
          exact ih h

/-- A predicate false on every element makes find? return none. -/
theorem find?_eq_none_of_all {α : Type} {p : α → Bool} {l : List α}
    (h : ∀ x ∈ l, p x = false) : l.find? p = none := by
  induction l with
  | nil => rfl
  | cons a l ih =>
      rw [List.find?_cons, h a (List.mem_cons_self a l)]
      exact ih fun x hx => h x (List.mem_cons_of_mem a hx)

/-- A predicate false on every element makes filter return the empty
list. -/
theorem filter_eq_nil_of_all {α : Type} {p : α → Bool} {l : List α}
    (h : ∀ x ∈ l, p x = false) : l.filter p = [] := by
  induction l with
  | nil => rfl
  | cons a l ih =>
      rw [List.filter_cons, h a (List.mem_cons_self a l)]
      exact ih fun x hx => h x (List.mem_cons_of_mem a hx)

/-- Equation for one worker run whose delivery throws a
non-rate-limited error: the row is set to RETRYING and then to FAILED
with the message, a FAILED log is written, and the error is rethrown. -/
theorem processEmailJob_failure_eq (env : WorkerEnv) (job : JobData) (db : EmailTable)
    (msg : String)
    (hallow : (checkRateLimit env.rateRead).allowed = true)
    (hsender : env.senderFound = true)
    (hdeliver : env.deliver = DeliverOutcome.failure msg)
    (hmsg : isRateLimitedMsg msg = false) :
    processEmailJob env job db =
      { db := updateEmail
            (updateEmail db job.emailId (fun x => { x with status := EmailStatus.RETRYING }))
            job.emailId
            (fun x => { x with status := EmailStatus.FAILED, errorMessage := some msg })
        logs := [{ emailId := job.emailId, status := "FAILED", message := "Send failed: " ++ msg }]
        deliveryInvoked := true
        thrown := some msg } := by
  simp [processEmailJob, workerCatch, hallow, hsender, hdeliver, hmsg]

/-- Equation for one worker run that is turned away by the rate
limiter: no sender lookup, no delivery; the row is set to RETRYING
with the RATE_LIMITED message, no log is written, and the error is
rethrown. -/
theorem processEmailJob_rateLimited_eq (env : WorkerEnv) (job : JobData) (db : EmailTable)
    (hallow : (checkRateLimit env.rateRead).allowed = false)
    (hmsg : isRateLimitedMsg (rateLimitedMsg (checkRateLimit env.rateRead).current
              (checkRateLimit env.rateRead).limit) = true) :
    processEmailJob env job db =
      { db := updateEmail db job.emailId (fun x =>
            { x with status := EmailStatus.RETRYING
                     errorMessage := some (rateLimitedMsg (checkRateLimit env.rateRead).current
                        (checkRateLimit env.rateRead).limit) })
        logs := []
        deliveryInvoked := false
        thrown := some (rateLimitedMsg (checkRateLimit env.rateRead).current
            (checkRateLimit env.rateRead).limit) } := by
  simp [processEmailJob, workerCatch, hallow, hmsg]

/-- Equation for one worker run whose delivery succeeds but whose
rate-counter increment throws: the row is set to RETRYING, then SENT,
then FAILED with the increment error message, and the error is
rethrown after the SENT log was written. -/
theorem processEmailJob_incrFailure_eq (env : WorkerEnv) (job : JobData) (db : EmailTable)
    (mid emsg : String)
    (hallow : (checkRateLimit env.rateRead).allowed = true)
    (hsender : env.senderFound = true)
    (hdeliver : env.deliver = DeliverOutcome.success mid)
    (hincr : env.incrRead = Except.error emsg)
    (hmsg : isRateLimitedMsg emsg = false) :
    processEmailJob env job db =
      { db := updateEmail
            (updateEmail
              (updateEmail db job.emailId (fun x => { x with status := EmailStatus.RETRYING }))
              job.emailId
              (fun x => { x with status := EmailStatus.SENT, sentAt := some env.nowMs }))
            job.emailId
            (fun x => { x with status := EmailStatus.FAILED, errorMessage := some emsg })
        logs := [{ emailId := job.emailId, status := "SENT"
                   message := "Email sent successfully. Message ID: " ++ mid },
                 { emailId := job.emailId, status := "FAILED", message := "Send failed: " ++ emsg }]
        deliveryInvoked := true
        thrown := some emsg } := by
  simp [processEmailJob, workerCatch, incrementRateLimit, hallow, hsender, hdeliver, hincr, hmsg]

/-- C1: the claim (and the spec) require the worker to re-read the
current status of the WorkItem immediately before executing and to
abort without invoking delivery when the item was cancelled.  The code
does neither: cancelEmail deletes the row and leaves the queued job in
place (removeEmailFromQueue is never called), and processEmailJob
never reads the emails table before sending.  Concretely: after
cancelling e1 the table is empty, yet running the queued job still
invokes the delivery collaborator. -/
theorem cancelled_item_still_delivered :
    (cancelEmail [sampleEmail] "e1").1 = [] ∧
    (processEmailJob sampleEnv sampleJob (cancelEmail [sampleEmail] "e1").1).thrown = none ∧
    (processEmailJob sampleEnv sampleJob (cancelEmail [sampleEmail] "e1").1).deliveryInvoked
      = true := by
  decide

/-- C2 counterexample: a terminal-class delivery failure (message
Invalid recipient, first attempt) is rethrown and the queue, holding
attempts = 3, schedules a retry with a 2000 ms exponential delay — the
claim asserts no retry job is ever scheduled after such a failure. -/
theorem terminal_failure_still_retried :
    (processEmailJob { sampleEnv with deliver := DeliverOutcome.failure "Invalid recipient" }
        sampleJob [sampleEmail]).thrown = some "Invalid recipient" ∧
    ((processEmailJob { sampleEnv with deliver := DeliverOutcome.failure "Invalid recipient" }
        sampleJob [sampleEmail]).db.map (fun e => e.status)) = [EmailStatus.FAILED] ∧
    decideAfterFailure 0 "Invalid recipient" 0 = RetryDecision.retry 2000 := by
  decide

/-- C2 amended: on any non-rate-limited delivery failure the WorkItem
is persisted as FAILED immediately with the error message, but the
error is rethrown and the queue retries the job with exponential
backoff whenever fewer than 3 attempts have been made; only once the
3-attempt cap is reached is no further job scheduled.  The code offers
no terminal (non-retryable) failure class. -/
theorem failure_marks_failed_yet_retried_until_cap
    (env : WorkerEnv) (job : JobData) (db : EmailTable) (e : EmailRec)
    (hmem : e ∈ db) (hid : e.id = job.emailId)
    (hallow : (checkRateLimit env.rateRead).allowed = true)
    (hsender : env.senderFound = true)
    (msg : String) (hdeliver : env.deliver = DeliverOutcome.failure msg)
    (hmsg : isRateLimitedMsg msg = false) (n t : Nat) :
    ({ e with status := EmailStatus.FAILED, errorMessage := some msg }
        ∈ (processEmailJob env job db).db) ∧
    (processEmailJob env job db).thrown = some msg ∧
    (n + 1 < emailQueueAttempts →
      decideAfterFailure n msg t = RetryDecision.retry (min (2 ^ (n + 1) * 1000) 60000)) ∧
    (emailQueueAttempts ≤ n + 1 →
      decideAfterFailure n msg t = RetryDecision.moveToFailed) := by
  rw [processEmailJob_failure_eq env job db msg hallow hsender hdeliver hmsg]
  refine ⟨?_, rfl, ?_, ?_⟩
  · have h1 := mem_updateEmail (fun x => { x with status := EmailStatus.RETRYING }) hmem hid
    have h2 := mem_updateEmail
      (fun x => { x with status := EmailStatus.FAILED, errorMessage := some msg }) h1 hid
    exact h2
  · intro h
    simp [decideAfterFailure, h, backoffStrategy, hmsg]
  · intro h
    simp [decideAfterFailure, Nat.not_lt.mpr h]

/-- C2 amended, witnessed at the Invalid recipient scenario. -/
theorem failure_marks_failed_yet_retried_until_cap_witness :
    ({ sampleEmail with status := EmailStatus.FAILED, errorMessage := some "Invalid recipient" }
        ∈ (processEmailJob { sampleEnv with deliver := DeliverOutcome.failure "Invalid recipient" }
            sampleJob [sampleEmail]).db) ∧
    (processEmailJob { sampleEnv with deliver := DeliverOutcome.failure "Invalid recipient" }
        sampleJob [sampleEmail]).thrown = some "Invalid recipient" ∧
    (0 + 1 < emailQueueAttempts →
      decideAfterFailure 0 "Invalid recipient" 0
        = RetryDecision.retry (min (2 ^ (0 + 1) * 1000) 60000)) ∧
    (emailQueueAttempts ≤ 0 + 1 →
      decideAfterFailure 0 "Invalid recipient" 0 = RetryDecision.moveToFailed) :=
  failure_marks_failed_yet_retried_until_cap
    { sampleEnv with deliver := DeliverOutcome.failure "Invalid recipient" }
    sampleJob [sampleEmail] sampleEmail (by decide) rfl (by decide) rfl
    "Invalid recipient" rfl (by decide) 0 0

/-- C3 counterexample: delivery succeeds and the row is persisted
SENT, but the subsequent incrementRateLimit storage failure is
rethrown and the catch branch re-marks the row FAILED — the claim
asserts the item stays in its terminal success status. -/
theorem increment_failure_overwrites_sent :
    ((processEmailJob { sampleEnv with incrRead := Except.error "Redis connection lost" }
        sampleJob [sampleEmail]).db.map (fun e => e.status)) = [EmailStatus.FAILED] ∧
    (processEmailJob { sampleEnv with incrRead := Except.error "Redis connection lost" }
        sampleJob [sampleEmail]).deliveryInvoked = true ∧
    (processEmailJob { sampleEnv with incrRead := Except.error "Redis connection lost" }
        sampleJob [sampleEmail]).thrown = some "Redis connection lost" := by
  decide

/-- C3 amended: checkRateLimit does fail open (a storage error yields
allowed = true), but incrementRateLimit failures are not swallowed: a
confirmed successful delivery followed by an increment storage error
leaves the row FAILED (not SENT), and the error is rethrown so the
queue retries the already-delivered item. -/
theorem rate_limiter_fail_open_only_on_check
    (env : WorkerEnv) (job : JobData) (db : EmailTable) (e : EmailRec)
    (hmem : e ∈ db) (hid : e.id = job.emailId)
    (hallow : (checkRateLimit env.rateRead).allowed = true)
    (hsender : env.senderFound = true)
    (mid : String) (hdeliver : env.deliver = DeliverOutcome.success mid)
    (emsg : String) (hincr : env.incrRead = Except.error emsg)
    (hmsg : isRateLimitedMsg emsg = false) :
    (checkRateLimit none).allowed = true ∧
    ({ e with status := EmailStatus.FAILED, sentAt := some env.nowMs, errorMessage := some emsg }
        ∈ (processEmailJob env job db).db) ∧
    (processEmailJob env job db).deliveryInvoked = true ∧
    (processEmailJob env job db).thrown = some emsg := by
  rw [processEmailJob_incrFailure_eq env job db mid emsg hallow hsender hdeliver hincr hmsg]
  refine ⟨rfl, ?_, rfl, rfl⟩
  have h1 := mem_updateEmail (fun x => { x with status := EmailStatus.RETRYING }) hmem hid
  have h2 := mem_updateEmail
    (fun x => { x with status := EmailStatus.SENT, sentAt := some env.nowMs }) h1 hid
  have h3 := mem_updateEmail
    (fun x => { x with status := EmailStatus.FAILED, errorMessage := some emsg }) h2 hid
  exact h3

/-- C3 amended, witnessed at the Redis connection lost scenario. -/
theorem rate_limiter_fail_open_only_on_check_witness :
    (checkRateLimit none).allowed = true ∧
    ({ sampleEmail with
        status := EmailStatus.FAILED
        sentAt := some 7000
        errorMessage := some "Redis connection lost" }
        ∈ (processEmailJob { sampleEnv with incrRead := Except.error "Redis connection lost" }
            sampleJob [sampleEmail]).db) ∧
    (processEmailJob { sampleEnv with incrRead := Except.error "Redis connection lost" }
        sampleJob [sampleEmail]).deliveryInvoked = true ∧
    (processEmailJob { sampleEnv with incrRead := Except.error "Redis connection lost" }
        sampleJob [sampleEmail]).thrown = some "Redis connection lost" :=
  rate_limiter_fail_open_only_on_check
    { sampleEnv with incrRead := Except.error "Redis connection lost" }
    sampleJob [sampleEmail] sampleEmail (by decide) rfl (by decide) rfl
    "mid-1" rfl "Redis connection lost" rfl (by decide)

/-- C4: the recovery query keeps only rows with scheduled_at at or
after the query-time clock, so a non-terminal row whose schedule
already passed at startup is never fetched: it is neither re-enqueued
nor marked FAILED, contradicting the claim (the stale-to-FAILED branch
inside the loop is unreachable for it).  Concretely, e1 is SCHEDULED
and due at 5000, recovery runs at 6000, and the table and queue are
left untouched. -/
theorem stale_item_neither_requeued_nor_failed :
    sampleEmail.status = EmailStatus.SCHEDULED ∧
    sampleEmail.scheduledAt < 6000 ∧
    (requeuePendingEmails 6000 6000 [sampleEmail]).db = [sampleEmail] ∧
    (requeuePendingEmails 6000 6000 [sampleEmail]).enqueued = [] := by
  decide

/-- C5 counterexample: scheduling e1 without a dedupe key enqueues a
job whose id is queue-assigned (none), not the item id e1; recovery
would enqueue the same item under job id e1, so the two enqueues do
not share the identity token the claim requires. -/
theorem initial_enqueue_without_key_is_not_item_id :
    ((scheduleEmailController [] sampleReqPlain "e1" false 1000).enqueued.map
        (fun j => j.jobId)) = [none] ∧
    ((requeuePendingEmails 1000 1000
        (scheduleEmailController [] sampleReqPlain "e1" false 1000).db).enqueued.map
        (fun j => j.jobId)) = [some "e1"] ∧
    (none : Option String) ≠ some "e1" := by
  decide

/-- C5 amended: the job id is the dedupe key whenever one is present,
on initial submission and on recovery alike — so re-submission of a
keyed item is a no-op on an identical job id.  Without a dedupe key,
however, the initial submission lets the queue auto-assign the job id
and only recovery falls back to the item id, so the dedupe guarantee
covers only items that carry a dedupe key. -/
theorem enqueue_job_id_is_dedupe_key_when_present
    (db : EmailTable) (req : ScheduleRequest) (newId : String) (now : Nat) (k : String)
    (hk : req.idempotencyKey = some k)
    (hmiss : getEmailByIdempotencyKey db k = none)
    (tl : Nat) (acc : RequeueResult) (e : EmailRec)
    (hek : e.idempotencyKey = some k) (hfresh : ¬ e.scheduledAt < tl) :
    ((scheduleEmailController db req newId false now).enqueued.map (fun j => j.jobId))
      = [some k] ∧
    (∃ j, (requeueStep tl acc e).enqueued = acc.enqueued ++ [j] ∧
      j.jobId = some k ∧ j.emailId = e.id) := by
  constructor
  · simp [scheduleEmailController, hk, hmiss, createEmail, addEmailToQueue]
  · refine ⟨addEmailToQueue e.id e.senderId 0 e.scheduledAt tl
      (some (e.idempotencyKey.getD e.id)), ?_, ?_, rfl⟩
    · simp [requeueStep, hfresh]
    · simp [addEmailToQueue, hek]

/-- C5 amended, witnessed at a keyed request and a keyed row. -/
theorem enqueue_job_id_is_dedupe_key_when_present_witness :
    (((scheduleEmailController [] sampleReqKeyed "e1" false 1000).enqueued.map
        (fun j => j.jobId)) = [some "K"]) ∧
    (∃ j, (requeueStep 1000 { db := [], enqueued := [] }
        { sampleEmail with idempotencyKey := some "K" }).enqueued = [] ++ [j] ∧
      j.jobId = some "K" ∧ j.emailId = { sampleEmail with idempotencyKey := some "K" }.id) :=
  enqueue_job_id_is_dedupe_key_when_present [] sampleReqKeyed "e1" 1000 "K" rfl rfl
    1000 { db := [], enqueued := [] } { sampleEmail with idempotencyKey := some "K" }
    rfl (by decide)

/-- C6 counterexample: a rate-limited attempt does throw before
contacting delivery, but the thrown RATE_LIMITED error is counted by
the queue like any other failure: at the concrete input attemptsMade
= 2 the throw exhausts the attempts cap of 3 and the job is moved to
the failed set with no reschedule — the claim asserts rate-limited
deferrals never consume one of the 3 retry attempts (and are always
rescheduled to the next hour window). -/
theorem rate_limited_throw_consumes_attempt :
    (processEmailJob { sampleEnv with rateRead := some (some 100) } sampleJob
        [sampleEmail]).deliveryInvoked = false ∧
    (processEmailJob { sampleEnv with rateRead := some (some 100) } sampleJob
        [sampleEmail]).thrown = some (rateLimitedMsg 100 100) ∧
    decideAfterFailure 2 (rateLimitedMsg 100 100) 3000000 = RetryDecision.moveToFailed := by
  decide

/-- C6 amended: a rate-limited attempt never contacts the delivery
collaborator, persists RETRYING with the RATE_LIMITED message, leaves
every attemptCount column unchanged, and — while fewer than 3 queue
attempts have been made — is rescheduled with exactly the delay to the
start of the next hour window; but each rate-limited throw does
consume one of the 3 queue attempts, and at the cap the job is moved
to failed instead of rescheduled. -/
theorem rate_limited_defers_but_consumes_attempts
    (env : WorkerEnv) (job : JobData) (db : EmailTable) (e : EmailRec)
    (hmem : e ∈ db) (hid : e.id = job.emailId)
    (hallow : (checkRateLimit env.rateRead).allowed = false)
    (hmsg : isRateLimitedMsg (rateLimitedMsg (checkRateLimit env.rateRead).current
              (checkRateLimit env.rateRead).limit) = true)
    (n t : Nat) :
    (processEmailJob env job db).deliveryInvoked = false ∧
    ({ e with
        status := EmailStatus.RETRYING
        errorMessage := some (rateLimitedMsg (checkRateLimit env.rateRead).current
          (checkRateLimit env.rateRead).limit) } ∈ (processEmailJob env job db).db) ∧
    ((processEmailJob env job db).db.map (fun x => x.attemptCount)
      = db.map (fun x => x.attemptCount)) ∧
    (processEmailJob env job db).thrown
      = some (rateLimitedMsg (checkRateLimit env.rateRead).current
          (checkRateLimit env.rateRead).limit) ∧
    (n + 1 < emailQueueAttempts →
      decideAfterFailure n (rateLimitedMsg (checkRateLimit env.rateRead).current
          (checkRateLimit env.rateRead).limit) t
        = RetryDecision.retry (delayUntilNextHour t)) ∧
    (emailQueueAttempts ≤ n + 1 →
      decideAfterFailure n (rateLimitedMsg (checkRateLimit env.rateRead).current
          (checkRateLimit env.rateRead).limit) t = RetryDecision.moveToFailed) := by
  rw [processEmailJob_rateLimited_eq env job db hallow hmsg]
  refine ⟨rfl, ?_, ?_, rfl, ?_, ?_⟩
  · have h1 := mem_updateEmail (fun x =>
      { x with
        status := EmailStatus.RETRYING
        errorMessage := some (rateLimitedMsg (checkRateLimit env.rateRead).current
          (checkRateLimit env.rateRead).limit) }) hmem hid
    exact h1
  · exact updateEmail_attemptCounts _ (fun x => rfl)
  · intro h
    simp [decideAfterFailure, h, backoffStrategy, hmsg]
  · intro h
    simp [decideAfterFailure, Nat.not_lt.mpr h]

/-- C6 amended, witnessed at a full counter and the final attempt. -/
theorem rate_limited_defers_but_consumes_attempts_witness :
    (processEmailJob { sampleEnv with rateRead := some (some 100) } sampleJob
        [sampleEmail]).deliveryInvoked = false ∧
    ({ sampleEmail with
        status := EmailStatus.RETRYING
        errorMessage := some (rateLimitedMsg
          (checkRateLimit ({ sampleEnv with rateRead := some (some 100) } : WorkerEnv).rateRead).current
          (checkRateLimit ({ sampleEnv with rateRead := some (some 100) } : WorkerEnv).rateRead).limit) }
      ∈ (processEmailJob { sampleEnv with rateRead := some (some 100) } sampleJob
          [sampleEmail]).db) ∧
    ((processEmailJob { sampleEnv with rateRead := some (some 100) } sampleJob
        [sampleEmail]).db.map (fun x => x.attemptCount)
      = [sampleEmail].map (fun x => x.attemptCount)) ∧
    (processEmailJob { sampleEnv with rateRead := some (some 100) } sampleJob
        [sampleEmail]).thrown
      = some (rateLimitedMsg
          (checkRateLimit ({ sampleEnv with rateRead := some (some 100) } : WorkerEnv).rateRead).current
          (checkRateLimit ({ sampleEnv with rateRead := some (some 100) } : WorkerEnv).rateRead).limit) ∧
    (0 + 1 < emailQueueAttempts →
      decideAfterFailure 0 (rateLimitedMsg
          (checkRateLimit ({ sampleEnv with rateRead := some (some 100) } : WorkerEnv).rateRead).current
          (checkRateLimit ({ sampleEnv with rateRead := some (some 100) } : WorkerEnv).rateRead).limit)
          3000000
        = RetryDecision.retry (delayUntilNextHour 3000000)) ∧
    (emailQueueAttempts ≤ 0 + 1 →
      decideAfterFailure 0 (rateLimitedMsg
          (checkRateLimit ({ sampleEnv with rateRead := some (some 100) } : WorkerEnv).rateRead).current
          (checkRateLimit ({ sampleEnv with rateRead := some (some 100) } : WorkerEnv).rateRead).limit)
          3000000 = RetryDecision.moveToFailed) :=
  rate_limited_defers_but_consumes_attempts
    { sampleEnv with rateRead := some (some 100) } sampleJob [sampleEmail] sampleEmail
    (by decide) rfl (by decide) (by decide) 0 3000000

/-- C7 counterexample: after the first transient delivery failure of
e1, the persisted status is FAILED (not a deferred status) and the
persisted attemptCount is still 0 (not 1) — the claim asserts
DEFERRED with attemptCount incremented to 1. -/
theorem transient_failure_not_deferred_and_count_not_incremented :
    ((processEmailJob { sampleEnv with deliver := DeliverOutcome.failure "Connection timeout" }
        sampleJob [sampleEmail]).db.map (fun e => e.status)) = [EmailStatus.FAILED] ∧
    ((processEmailJob { sampleEnv with deliver := DeliverOutcome.failure "Connection timeout" }
        sampleJob [sampleEmail]).db.map (fun e => e.attemptCount)) = [0] ∧
    sampleEmail.attemptCount = 0 := by
  decide

/-- C7 amended: on any non-rate-limited delivery failure the worker
persists FAILED (not a deferred status) with the error message, and it
never touches the attempt_count column: the attemptCount of every row
is exactly what it was before the attempt, so after any number of
transient failures the persisted attemptCount still equals its
creation value. -/
theorem transient_failure_leaves_attempt_count_unchanged
    (env : WorkerEnv) (job : JobData) (db : EmailTable) (e : EmailRec)
    (hmem : e ∈ db) (hid : e.id = job.emailId)
    (hallow : (checkRateLimit env.rateRead).allowed = true)
    (hsender : env.senderFound = true)
    (msg : String) (hdeliver : env.deliver = DeliverOutcome.failure msg)
    (hmsg : isRateLimitedMsg msg = false) :
    ((processEmailJob env job db).db.map (fun x => x.attemptCount)
      = db.map (fun x => x.attemptCount)) ∧
    ({ e with status := EmailStatus.FAILED, errorMessage := some msg }
        ∈ (processEmailJob env job db).db) := by
  rw [processEmailJob_failure_eq env job db msg hallow hsender hdeliver hmsg]
  constructor
  · rw [updateEmail_attemptCounts
        (fun x => { x with status := EmailStatus.FAILED, errorMessage := some msg })
        (fun x => rfl),
      updateEmail_attemptCounts (fun x => { x with status := EmailStatus.RETRYING })
        (fun x => rfl)]
  · have h1 := mem_updateEmail (fun x => { x with status := EmailStatus.RETRYING }) hmem hid
    have h2 := mem_updateEmail
      (fun x => { x with status := EmailStatus.FAILED, errorMessage := some msg }) h1 hid
    exact h2

/-- C7 amended, witnessed at the Connection timeout scenario. -/
theorem transient_failure_leaves_attempt_count_unchanged_witness :
    ((processEmailJob { sampleEnv with deliver := DeliverOutcome.failure "Connection timeout" }
        sampleJob [sampleEmail]).db.map (fun x => x.attemptCount)
      = [sampleEmail].map (fun x => x.attemptCount)) ∧
    ({ sampleEmail with status := EmailStatus.FAILED, errorMessage := some "Connection timeout" }
        ∈ (processEmailJob { sampleEnv with deliver := DeliverOutcome.failure "Connection timeout" }
            sampleJob [sampleEmail]).db) :=
  transient_failure_leaves_attempt_count_unchanged
    { sampleEnv with deliver := DeliverOutcome.failure "Connection timeout" }
    sampleJob [sampleEmail] sampleEmail (by decide) rfl (by decide) rfl
    "Connection timeout" rfl (by decide)

/-- Any row the recovery query selects (non-terminal status, schedule
at or after the query clock) whose schedule has also not passed at
loop time gets a job enqueued by requeuePendingEmails. -/
theorem requeuePendingEmails_enqueues (tq tl : Nat) (db : EmailTable) (e : EmailRec)
    (he : e ∈ db) (hst : isRequeueStatus e = true) (hq : tq ≤ e.scheduledAt)
    (hfresh : ¬ e.scheduledAt < tl) :
    ∃ j ∈ (requeuePendingEmails tq tl db).enqueued,
      j.emailId = e.id ∧ j.jobId = some (e.idempotencyKey.getD e.id) := by
  unfold requeuePendingEmails
  apply requeue_foldl_enqueues tl _ _ e _ hfresh
  exact List.mem_filter.mpr ⟨he, by simp [hst, hq]⟩

/-- When the request carries an idempotency key that already has a
row, the schedule controller responds 200 with the existing row and
changes nothing. -/
theorem scheduleEmailController_hit (db : EmailTable) (req : ScheduleRequest)
    (newId : String) (qf : Bool) (now : Nat) (k : String) (ex : EmailRec)
    (hk : req.idempotencyKey = some k)
    (hfind : getEmailByIdempotencyKey db k = some ex) :
    scheduleEmailController db req newId qf now =
      { db := db, enqueued := [], logs := []
        response := { status := 200, message := "Email already scheduled"
                      emailId := some ex.id } } := by
  simp [scheduleEmailController, hk, hfind]

/-- C8: calling the schedule entrypoint twice in sequence with the
same idempotency key K, starting from a table with no row keyed K,
returns the same email id both times, leaves the table unchanged on
the second call, and leaves exactly one row keyed K. -/
theorem idempotent_creation
    (db : EmailTable) (req : ScheduleRequest) (k : String)
    (hk : req.idempotencyKey = some k)
    (hfree : ∀ e ∈ db, e.idempotencyKey ≠ some k)
    (id1 id2 : String) (q1 q2 : Bool) (t1 t2 : Nat) :
    (scheduleEmailController db req id1 q1 t1).response.emailId = some id1 ∧
    (scheduleEmailController (scheduleEmailController db req id1 q1 t1).db
        req id2 q2 t2).response.emailId = some id1 ∧
    (scheduleEmailController (scheduleEmailController db req id1 q1 t1).db
        req id2 q2 t2).db = (scheduleEmailController db req id1 q1 t1).db ∧
    (((scheduleEmailController db req id1 q1 t1).db.filter
        (fun e => e.idempotencyKey = some k)).length) = 1 := by
  have hf0 : getEmailByIdempotencyKey db k = none := by
    apply find?_eq_none_of_all
    intro x hx
    simpa using hfree x hx
  have h1db : (scheduleEmailController db req id1 q1 t1).db
      = db ++ [{ id := id1, senderId := req.senderId, recipientEmail := req.recipientEmail
                 subject := req.subject, body := req.body, scheduledAt := req.scheduledAt
                 sentAt := none, status := EmailStatus.SCHEDULED, attemptCount := 0
                 errorMessage := none, idempotencyKey := req.idempotencyKey }] := by
    simp [scheduleEmailController, hk, hf0, createEmail]
  have hfind2 : getEmailByIdempotencyKey (scheduleEmailController db req id1 q1 t1).db k
      = some { id := id1, senderId := req.senderId, recipientEmail := req.recipientEmail
               subject := req.subject, body := req.body, scheduledAt := req.scheduledAt
               sentAt := none, status := EmailStatus.SCHEDULED, attemptCount := 0
               errorMessage := none, idempotencyKey := req.idempotencyKey } := by
    rw [h1db]
    unfold getEmailByIdempotencyKey at hf0 ⊢
    rw [find?_append_of_none hf0]
    exact List.find?_cons_of_pos _ (by simp [hk])
  refine ⟨?_, ?_, ?_, ?_⟩
  · simp [scheduleEmailController, hk, hf0, createEmail]
  · rw [scheduleEmailController_hit _ _ id2 q2 t2 k _ hk hfind2]
  · rw [scheduleEmailController_hit _ _ id2 q2 t2 k _ hk hfind2]
  · rw [h1db, List.filter_append]
    rw [filter_eq_nil_of_all (fun x hx => by simpa using hfree x hx)]
    simp [hk]

/-- C8, witnessed: two keyed submissions against an empty table. -/
theorem idempotent_creation_witness :
    (scheduleEmailController [] sampleReqKeyed "e1" false 0).response.emailId = some "e1" ∧
    (scheduleEmailController (scheduleEmailController [] sampleReqKeyed "e1" false 0).db
        sampleReqKeyed "e2" false 0).response.emailId = some "e1" ∧
    (scheduleEmailController (scheduleEmailController [] sampleReqKeyed "e1" false 0).db
        sampleReqKeyed "e2" false 0).db = (scheduleEmailController [] sampleReqKeyed "e1" false 0).db ∧
    (((scheduleEmailController [] sampleReqKeyed "e1" false 0).db.filter
        (fun e => e.idempotencyKey = some "K")).length) = 1 :=
  idempotent_creation [] sampleReqKeyed "K" rfl
    (by intro e he; exact absurd he (List.not_mem_nil e)) "e1" "e2" false false 0 0

/-- C9: for a non-rate-limited error the registered backoffStrategy
computes a retry delay of min(2 ^ attemptsMade * 1000 ms, 60000 ms) —
that is, min(2 ^ n seconds, 60 seconds) — and the delay is monotone
nondecreasing in the attempt number. -/
theorem backoff_delay_exponential_and_monotone (n t : Nat) (msg : String)
    (hmsg : isRateLimitedMsg msg = false) :
    backoffStrategy n msg t = min (2 ^ n * 1000) 60000 ∧
    backoffStrategy n msg t ≤ backoffStrategy (n + 1) msg t := by
  have he : ∀ m, backoffStrategy m msg t = min (2 ^ m * 1000) 60000 := by
    intro m
    simp [backoffStrategy, hmsg]
  refine ⟨he n, ?_⟩
  rw [he n, he (n + 1)]
  have hp : 2 ^ n * 1000 ≤ 2 ^ (n + 1) * 1000 :=
    Nat.mul_le_mul_right 1000 (Nat.pow_le_pow_right (by norm_num) (Nat.le_succ n))
  exact min_le_min hp (le_refl 60000)

/-- C9, witnessed at attempt 0 with a transport timeout message. -/
theorem backoff_delay_exponential_and_monotone_witness :
    backoffStrategy 0 "transport timeout" 0 = min (2 ^ 0 * 1000) 60000 ∧
    backoffStrategy 0 "transport timeout" 0 ≤ backoffStrategy (0 + 1) "transport timeout" 0 :=
  backoff_delay_exponential_and_monotone 0 0 "transport timeout" (by decide)

/-- C10: when the row is created but the enqueue throws, the schedule
entrypoint swallows the queue error and still responds 201 Email
scheduled successfully with nothing enqueued; the row sits in the
table as SCHEDULED, and a restart-recovery pass run at any instant not
after its scheduledAt re-enqueues a job for it. -/
theorem queue_error_swallowed_and_recovered
    (db : EmailTable) (req : ScheduleRequest) (newId : String) (now : Nat)
    (hk : req.idempotencyKey = none) :
    (scheduleEmailController db req newId true now).response.status = 201 ∧
    (scheduleEmailController db req newId true now).response.message
      = "Email scheduled successfully" ∧
    (scheduleEmailController db req newId true now).enqueued = [] ∧
    ({ id := newId, senderId := req.senderId, recipientEmail := req.recipientEmail
       subject := req.subject, body := req.body, scheduledAt := req.scheduledAt
       sentAt := none, status := EmailStatus.SCHEDULED, attemptCount := 0
       errorMessage := none, idempotencyKey := none } : EmailRec)
      ∈ (scheduleEmailController db req newId true now).db ∧
    (∀ t, t ≤ req.scheduledAt →
      ∃ j ∈ (requeuePendingEmails t t (scheduleEmailController db req newId true now).db).enqueued,
        j.emailId = newId) := by
  have h1db : (scheduleEmailController db req newId true now).db
      = db ++ [{ id := newId, senderId := req.senderId, recipientEmail := req.recipientEmail
                 subject := req.subject, body := req.body, scheduledAt := req.scheduledAt
                 sentAt := none, status := EmailStatus.SCHEDULED, attemptCount := 0
                 errorMessage := none, idempotencyKey := none }] := by
    simp [scheduleEmailController, hk, createEmail]
  have hmemN : ({ id := newId, senderId := req.senderId, recipientEmail := req.recipientEmail
                  subject := req.subject, body := req.body, scheduledAt := req.scheduledAt
                  sentAt := none, status := EmailStatus.SCHEDULED, attemptCount := 0
                  errorMessage := none, idempotencyKey := none } : EmailRec)
      ∈ (scheduleEmailController db req newId true now).db := by
    rw [h1db]
    exact List.mem_append_right db (List.mem_singleton.mpr rfl)
  refine ⟨?_, ?_, ?_, hmemN, ?_⟩
  · simp [scheduleEmailController, hk, createEmail]
  · simp [scheduleEmailController, hk, createEmail]
  · simp [scheduleEmailController, hk, createEmail]
  · intro t ht
    obtain ⟨j, hj, hjid, _⟩ := requeuePendingEmails_enqueues t t _ _ hmemN
      (by simp [isRequeueStatus]) ht (Nat.not_lt.mpr ht)
    exact ⟨j, hj, hjid⟩

/-- C10, witnessed: a plain request against an empty table with a
failing queue, recovered at instant 0. -/
theorem queue_error_swallowed_and_recovered_witness :
    (scheduleEmailController [] sampleReqPlain "e1" true 0).response.status = 201 ∧
    (scheduleEmailController [] sampleReqPlain "e1" true 0).response.message
      = "Email scheduled successfully" ∧
    (scheduleEmailController [] sampleReqPlain "e1" true 0).enqueued = [] ∧
    ({ id := "e1", senderId := sampleReqPlain.senderId
       recipientEmail := sampleReqPlain.recipientEmail
       subject := sampleReqPlain.subject, body := sampleReqPlain.body
       scheduledAt := sampleReqPlain.scheduledAt
       sentAt := none, status := EmailStatus.SCHEDULED, attemptCount := 0
       errorMessage := none, idempotencyKey := none } : EmailRec)
      ∈ (scheduleEmailController [] sampleReqPlain "e1" true 0).db ∧
    (∀ t, t ≤ sampleReqPlain.scheduledAt →
      ∃ j ∈ (requeuePendingEmails t t
          (scheduleEmailController [] sampleReqPlain "e1" true 0).db).enqueued,
        j.emailId = "e1") :=
  queue_error_swallowed_and_recovered [] sampleReqPlain "e1" 0 rfl

end EmailScheduler
